import Mathlib

/-!
Verification development for the task-manager countdown and alert engine
(`src/app/page.tsx`).

The TypeScript source is shallowly embedded:

* Calendar dates ("YYYY-MM-DD" strings from the date inputs) are civil
  triples `Ymd`; JavaScript `Date` internals are modelled ECMA-262 style
  by a day number (days since 0001-01-01, proleptic Gregorian).  The host
  clock is taken to be in UTC, so that parsing `"<ymd>T00:00"` (local
  time) and formatting with `toISOString().slice(0, 10)` (UTC) agree on
  the calendar date.
* Instants (`Date.getTime()` values) are `Int` milliseconds.  A `Date`
  value that may be invalid ("Invalid Date", `getTime() = NaN`) is a
  `JsTime`; comparisons with `nan` are `false`, as in JavaScript.
* Stored date/time fields are `Option DateField` / `Option TimeField`:
  `Option.none` models both `undefined` and the empty string (falsy in
  every `||` in the source), `.bad` models a present but unparseable
  string (possible through JSON import).
* React state updates inside one interval tick are modelled by their
  batched semantics: every read inside the tick sees the pre-tick value
  captured by the effect closure, and the post-tick state is the last
  value written per variable.
-/

set_option maxHeartbeats 2000000
set_option maxRecDepth 8000

namespace TaskManager

/-! ## Calendar model (ECMA-262 style) -/

structure Ymd where
  y : Nat
  m : Nat
  d : Nat
deriving DecidableEq, Repr

/-- Gregorian leap-year rule (ECMA-262 DaysInYear). -/
def isLeap (y : Nat) : Bool := (y % 4 == 0 && y % 100 != 0) || y % 400 == 0

/-- Length of month `m` (1..12) in a year whose leap flag is `leap`. -/
def monthLen (leap : Bool) (m : Nat) : Nat :=
  if m = 2 then (if leap then 29 else 28)
  else if m = 4 ∨ m = 6 ∨ m = 9 ∨ m = 11 then 30
  else 31

def daysInMonth (y m : Nat) : Nat := monthLen (isLeap y) m

/-- Days in year `y` before month `m` (`m` in 1..12; DayWithinYear offsets). -/
def monthStart (leap : Bool) (m : Nat) : Nat :=
  let L := if leap then 1 else 0
  match m with
  | 1 => 0
  | 2 => 31
  | 3 => 59 + L
  | 4 => 90 + L
  | 5 => 120 + L
  | 6 => 151 + L
  | 7 => 181 + L
  | 8 => 212 + L
  | 9 => 243 + L
  | 10 => 273 + L
  | 11 => 304 + L
  | _ => 334 + L

/-- Day number of Jan 1 of year `y` (days since 0001-01-01), for `y ≥ 1`. -/
def dayFromYear (y : Nat) : Nat :=
  365 * (y - 1) + (y - 1) / 4 - (y - 1) / 100 + (y - 1) / 400

/-- Day number of a civil date (ECMA-262 MakeDay; `d` may overflow the month). -/
def dayNumber (x : Ymd) : Nat :=
  dayFromYear x.y + monthStart (isLeap x.y) x.m + (x.d - 1)

/-- `dayFromYear` relative to the start of a 400-year cycle. -/
def cycleDay (k : Nat) : Nat := 365 * k + k / 4 - k / 100 + k / 400

/-- Largest year `y` with `dayFromYear y ≤ n` (ECMA-262 YearFromTime). -/
def yearFromDay (n : Nat) : Nat :=
  let g := n / 146097
  let r := n % 146097
  let k0 := r / 365
  let k := if cycleDay k0 ≤ r then k0 else k0 - 1
  400 * g + k + 1

/-- Month (1..12) containing day-of-year offset `doy` (ECMA-262 MonthFromTime). -/
def monthFromDoy (leap : Bool) (doy : Nat) : Nat :=
  let L := if leap then 1 else 0
  if doy < 31 then 1
  else if doy < 59 + L then 2
  else if doy < 90 + L then 3
  else if doy < 120 + L then 4
  else if doy < 151 + L then 5
  else if doy < 181 + L then 6
  else if doy < 212 + L then 7
  else if doy < 243 + L then 8
  else if doy < 273 + L then 9
  else if doy < 304 + L then 10
  else if doy < 334 + L then 11
  else 12

/-- Civil date of a day number (YearFromTime / MonthFromTime / DateFromTime). -/
def civilFromDay (n : Nat) : Ymd :=
  let y := yearFromDay n
  let doy := n - dayFromYear y
  let m := monthFromDoy (isLeap y) doy
  ⟨y, m, doy - monthStart (isLeap y) m + 1⟩

def ymdValid (x : Ymd) : Prop :=
  1 ≤ x.y ∧ 1 ≤ x.m ∧ x.m ≤ 12 ∧ 1 ≤ x.d ∧ x.d ≤ daysInMonth x.y x.m

instance (x : Ymd) : Decidable (ymdValid x) := by unfold ymdValid; infer_instance

/-- The calendar successor of a date: `x` advanced by exactly one calendar day. -/
def nextCalendarDay (x : Ymd) : Ymd :=
  if x.d < daysInMonth x.y x.m then ⟨x.y, x.m, x.d + 1⟩
  else if x.m < 12 then ⟨x.y, x.m + 1, 1⟩
  else ⟨x.y + 1, 1, 1⟩

/-- `x` advanced by exactly `k` calendar days. -/
def nextCalendarDays (k : Nat) (x : Ymd) : Ymd :=
  match k with
  | 0 => x
  | k + 1 => nextCalendarDay (nextCalendarDays k x)

/-! ## Source helpers: `addToYMD` and `nextByRecurrence`

`addToYMD` embeds

```
const addToYMD = (ymd, { days = 0, months = 0 }) => {
  const dt = new Date(ymdT00:00);
  if (months) dt.setMonth(dt.getMonth() + months);
  if (days) dt.setDate(dt.getDate() + days);
  return dt.toISOString().slice(0, 10);
};
```

`setMonth` is ECMA-262 MakeDay on components with the month overflow
carried into the year and the day-of-month kept (normalised when the
`Date` is re-read); `setDate` shifts the internal day number.  The host
clock is modelled in UTC so the local parse and the UTC `toISOString`
agree on the calendar date. -/

/-- Internal day number after `setMonth(getMonth() + months)` on `ymdT00:00`. -/
def setMonthDay (x : Ymd) (months : Nat) : Nat :=
  let m0 := (x.m - 1) + months
  let y2 := x.y + m0 / 12
  dayFromYear y2 + monthStart (isLeap y2) (m0 % 12 + 1) + (x.d - 1)

def addToYMD (x : Ymd) (days months : Nat) : Ymd :=
  let n0 := dayNumber x
  let n1 := if months ≠ 0 then setMonthDay x months else n0
  let n2 := if days ≠ 0 then n1 + days else n1
  civilFromDay n2

inductive Recurrence where
  | none
  | daily
  | weekly
  | monthly
deriving DecidableEq, Repr

/-- `nextByRecurrence(date, rule)`; `Option.none` models `undefined` (and the
empty string, falsy in `if (!date)`).  On a present but unparseable date the
source would throw inside `toISOString`; that path is outside every claim and
is modelled by propagating the bad field (see `DateField`). -/
def nextByRecurrence (date : Option Ymd) (rule : Recurrence) : Option Ymd :=
  match date with
  | Option.none => Option.none
  | some x =>
    match rule with
    | Recurrence.daily => some (addToYMD x 1 0)
    | Recurrence.weekly => some (addToYMD x 7 0)
    | Recurrence.monthly => some (addToYMD x 0 1)
    | Recurrence.none => Option.none

/-! ## JavaScript date values and task fields -/

/-- A `Date.getTime()` value: finite milliseconds, or NaN for an Invalid Date. -/
inductive JsTime where
  | fin (ms : Int)
  | nan
deriving DecidableEq, Repr

/-- `getTime()` as an `Int`; only meaningful on `fin` (callers guard NaN). -/
def JsTime.ms : JsTime → Int
  | JsTime.fin v => v
  | JsTime.nan => 0

def JsTime.isNaN : JsTime → Bool
  | JsTime.fin _ => false
  | JsTime.nan => true

/-- JavaScript `a >= b` on `Date`s: false whenever either side is NaN. -/
def jsGe (a : Int) (b : JsTime) : Bool :=
  match b with
  | JsTime.fin v => a ≥ v
  | JsTime.nan => false

/-- JavaScript `a < b` on `Date`s: false whenever either side is NaN. -/
def jsLt (a b : JsTime) : Bool :=
  match a, b with
  | JsTime.fin va, JsTime.fin vb => va < vb
  | _, _ => false

/-- A stored date string: parses to the civil date `x`, or is unparseable. -/
inductive DateField where
  | ok (x : Ymd)
  | bad
deriving DecidableEq, Repr

/-- A stored time-of-day string ("HH:MM"): parses to `ms` milliseconds past
midnight, or is unparseable (making the whole datetime literal invalid). -/
inductive TimeField where
  | tok (ms : Nat)
  | tbad
deriving DecidableEq, Repr

/-- "00:00". -/
def time0000 : TimeField := TimeField.tok 0

/-- "23:59". -/
def time2359 : TimeField := TimeField.tok 86340000

/-- Milliseconds since the Unix epoch of local midnight of `x` (host in UTC).
Day 719162 is 1970-01-01. -/
def epochMs (x : Ymd) : Int := ((dayNumber x : Int) - 719162) * 86400000

/-- `toDateTime(d, t, fallbackTime)`: `d ? new Date(dT(t || fallbackTime)) : null`.
`Option.none` is `null`; an unparseable component yields an Invalid Date. -/
def toDateTime (d : Option DateField) (t : Option TimeField) (fb : TimeField) :
    Option JsTime :=
  match d with
  | Option.none => Option.none
  | some DateField.bad => some JsTime.nan
  | some (DateField.ok x) =>
    match t.getD fb with
    | TimeField.tok ms => some (JsTime.fin (epochMs x + ms))
    | TimeField.tbad => some JsTime.nan

structure Task where
  id : String
  title : String
  completed : Bool
  startDate : Option DateField := Option.none
  startTime : Option TimeField := Option.none
  endDate : Option DateField := Option.none
  endTime : Option TimeField := Option.none
  recurrence : Option Recurrence := Option.none
  createdAt : Option String := Option.none
deriving DecidableEq, Repr

/-! ## Countdown engine (the `setInterval` body of the countdown `useEffect`)

Engine state is the React state read by the effect closure.  Within one
tick every read sees the pre-tick value (the closure captures the render
values) and the post-tick state is the last `setX` call per variable. -/

inductive Color where
  | blue
  | yellow
  | red
  | redPulse
deriving DecidableEq, Repr

inductive Zone where
  | done
  | critical
  | imminent
  | warning
  | normal
deriving DecidableEq, Repr

def zoneOfColor : Color → Zone
  | Color.blue => Zone.normal
  | Color.yellow => Zone.warning
  | Color.red => Zone.imminent
  | Color.redPulse => Zone.critical

def colorOfZone : Zone → Color
  | Zone.done => Color.blue
  | Zone.critical => Color.redPulse
  | Zone.imminent => Color.red
  | Zone.warning => Color.yellow
  | Zone.normal => Color.blue

/-- The `time` field of the published snapshot. -/
inductive TimeText where
  | blank
  | doneText
  | left (h m s : Int)
deriving DecidableEq, Repr

structure CountdownState where
  title : String
  time : TimeText
  color : Color
deriving DecidableEq, Repr

/-- Key of the tracked (task, due) pair: `` `${task.id}-${due.toISOString()}` ``. -/
abbrev TKey := String × Int

/-- Notification dedup key: `` `${task.id}-${dueIso}` `` where `dueIso` is `""`
when the due datetime is `null`. -/
abbrev NKey := String × Option Int

structure EngState where
  lastColor : Option Color := Option.none
  lastTaskKey : Option TKey := Option.none
  alarmStarted : Bool := false
  notified : List NKey := []
deriving DecidableEq, Repr

/-- EngState at mount: `lastColor = ""`, `lastTaskKey = ""`, `alarmStarted =
false`, `notified5minRef = new Set()`. -/
def initState : EngState := {}

structure Effects where
  alarmPlayed : Bool := false
  alarmStopped : Bool := false
  chimePlayed : Bool := false
  notifAttempt : Option NKey := Option.none
  notifFired : Option NKey := Option.none
  countdown : Option CountdownState := Option.none
deriving DecidableEq, Repr

/-- `tasks.filter(t => !t.completed)`. -/
def activeOf (tasks : List Task) : List Task :=
  tasks.filter (fun t => !t.completed)

/-- `toDateTime(t.startDate, t.startTime, "00:00")`. -/
def startOf (t : Task) : Option JsTime :=
  toDateTime t.startDate t.startTime time0000

/-- `const st = toDateTime(...); return st ? now >= st : true`. -/
def isStarted (now : Int) (t : Task) : Bool :=
  match startOf t with
  | Option.none => true
  | some v => jsGe now v

def startedOf (tasks : List Task) (now : Int) : List Task :=
  (activeOf tasks).filter (isStarted now)

/-- `toDateTime(t.endDate || t.startDate, t.endTime || t.startTime || "23:59")
|| new Date(8640000000000000)`.  The `||` fallback replaces only `null`
(absent date); an Invalid Date object is truthy and survives. -/
def dueOf (t : Task) : JsTime :=
  (toDateTime (t.endDate <|> t.startDate)
      (some ((t.endTime <|> t.startTime).getD time2359)) time0000).getD
    (JsTime.fin 8640000000000000)

structure Cand where
  task : Task
  due : JsTime
  start : Option JsTime
deriving DecidableEq, Repr

def mkCand (t : Task) : Cand := ⟨t, dueOf t, startOf t⟩

/-- `started.map(...).filter(c => !Number.isNaN(c.due.getTime()))`. -/
def candListOf (tasks : List Task) (now : Int) : List Cand :=
  ((startedOf tasks now).map mkCand).filter (fun c => !c.due.isNaN)

/-- First element of minimal due: the head of the stable ascending sort by
`a.due.getTime() - b.due.getTime()` (JS `Array.prototype.sort` is stable, so
`candidates[0]` is the first element attaining the minimum). -/
def firstMin (c : Cand) (cs : List Cand) : Cand :=
  cs.foldl (fun best x => if jsLt x.due best.due then x else best) c

def selectTarget (tasks : List Task) (now : Int) : Option Cand :=
  match candListOf tasks now with
  | [] => Option.none
  | c :: cs => some (firstMin c cs)

/-- `` `${target.task.id}-${target.due.toISOString()}` ``. -/
def targetKey (c : Cand) : TKey := (c.task.id, c.due.ms)

/-- `now >= target.start.getTime() + (due - start) / 2`, exactly: the JS
float halving is exact at these magnitudes, and for an integer `now`,
`now ≥ s + (due - s) / 2  ↔  2 * now ≥ 2 * s + (due - s)`.  NaN compares
false. -/
def halfReached (now : Int) (sv : JsTime) (due : Int) : Bool :=
  match sv with
  | JsTime.fin s => 2 * now ≥ 2 * s + (due - s)
  | JsTime.nan => false

/-- The sequential color assignment of the classified branch
(`page.tsx` lines 295-308), given `start`, `due.getTime()` and `now`;
reached only with `diffMs > 0`. -/
def tickColor (start : Option JsTime) (due now : Int) : Color :=
  let diff := due - now
  let c0 := Color.blue
  let c1 :=
    match start with
    | some sv =>
      if diff > 5 * 60 * 1000 then
        (if halfReached now sv due then Color.yellow else c0)
      else
        (if diff ≤ 24 * 60 * 60 * 1000 ∧ diff > 5 * 60 * 1000 then Color.yellow else c0)
    | Option.none =>
      if diff ≤ 24 * 60 * 60 * 1000 ∧ diff > 5 * 60 * 1000 then Color.yellow else c0
  let c2 := if diff ≤ 5 * 60 * 1000 then Color.red else c1
  if diff ≤ 60 * 1000 then Color.redPulse else c2

/-- The escalation zone of a selected target: `Done` when `remaining ≤ 0`,
otherwise the zone named by the computed color. -/
def classifyZone (start : Option JsTime) (due now : Int) : Zone :=
  if due - now ≤ 0 then Zone.done
  else zoneOfColor (tickColor start due now)

inductive TickOutcome where
  | noActive
  | noneStarted
  | noDeadline
  | target (z : Zone)
deriving DecidableEq, Repr

/-- What a tick resolves to, as a function of the task snapshot and `now`
only (the countdown effect derives everything else from engine state). -/
def outcomeOf (tasks : List Task) (now : Int) : TickOutcome :=
  if (activeOf tasks).isEmpty then TickOutcome.noActive
  else if (startedOf tasks now).isEmpty then TickOutcome.noneStarted
  else
    match selectTarget tasks now with
    | Option.none => TickOutcome.noDeadline
    | some c => TickOutcome.target (classifyZone c.start c.due.ms now)

/-- Dedup key computed inside `show5minNotification`:
`` `${task.id}-${(toDateTime(endDate || startDate, endTime || startTime || "23:59"))?.toISOString() ?? ""}` ``.
The due recomputation equals `dueOf` without the max-date fallback; it is
never NaN at a call site (NaN dues are filtered out of the candidates). -/
def notifKey (t : Task) : NKey :=
  (t.id, (toDateTime (t.endDate <|> t.startDate)
      (some ((t.endTime <|> t.startTime).getD time2359)) time0000).map JsTime.ms)

/-- `show5minNotification` body: permission gate, then dedup by key.
`perm` is `typeof Notification !== "undefined" && notifPerm === "granted"`.
Returns the updated `notified5minRef` set and the key of an actually
constructed `new Notification`, if any. -/
def show5minNotification (perm : Bool) (k : NKey) (notified : List NKey) :
    List NKey × Option NKey :=
  if !perm then (notified, Option.none)
  else if k ∈ notified then (notified, Option.none)
  else (k :: notified, some k)

/-- The `h/m/s` decomposition of a positive `diffMs` (floor division). -/
def timeLeftText (diff : Int) : TimeText :=
  TimeText.left (diff / 3600000) ((diff / 60000) % 60) ((diff / 1000) % 60)

/-- One tick of the countdown interval (`page.tsx` lines 224-334), with the
selected target in hand (`candidates[0]` after the stable sort).  All reads
of `alarmStarted` / `lastColor` / `lastTaskKey` see the pre-tick state `st`
(the closure captures the render values); the returned state applies the
last `setX` call per variable. -/
def tickTarget (c : Cand) (now : Int) (perm : Bool) (st : EngState) :
    EngState × Effects :=
  let key := targetKey c
  let reset := st.lastTaskKey ≠ some key
  -- if (targetKey !== lastTaskKey) { pause alarm; setAlarmStarted(false);
  --   setLastColor(""); setLastTaskKey(targetKey); }
  let st1 := if reset then
      { st with alarmStarted := false, lastColor := Option.none, lastTaskKey := some key }
    else st
  let diff := c.due.ms - now
  if diff ≤ 0 then
    ({ st1 with alarmStarted := false },
     { alarmStopped := true,
       countdown := some ⟨c.task.title, TimeText.doneText, Color.blue⟩ })
  else
    let color := tickColor c.start c.due.ms now
    let attempted := if diff ≤ 5 * 60 * 1000 then some (notifKey c.task) else Option.none
    let nf := if diff ≤ 5 * 60 * 1000 then
        show5minNotification perm (notifKey c.task) st.notified
      else (st.notified, Option.none)
    -- alarm control reads the pre-tick `alarmStarted`
    let played := diff ≤ 60 * 1000 ∧ st.alarmStarted = false
    let alarmAfter :=
      if diff ≤ 60 * 1000 then
        (if st.alarmStarted then st1.alarmStarted else true)
      else
        (if st.alarmStarted then false else st1.alarmStarted)
    let stopInElse := ¬ (diff ≤ 60 * 1000) ∧ st.alarmStarted = true
    -- chime reads the pre-tick `lastColor`
    let chime := st.lastColor.isSome ∧ some color ≠ st.lastColor ∧ diff > 60 * 1000
    ({ st1 with alarmStarted := alarmAfter, lastColor := some color, notified := nf.1 },
     { alarmPlayed := played,
       alarmStopped := reset ∨ stopInElse,
       chimePlayed := chime,
       notifAttempt := attempted,
       notifFired := nf.2,
       countdown := some ⟨c.task.title, timeLeftText diff, color⟩ })

/-- One tick of the countdown interval. -/
def tick (tasks : List Task) (now : Int) (perm : Bool) (st : EngState) :
    EngState × Effects :=
  if (activeOf tasks).isEmpty then
    ({ st with alarmStarted := false, lastColor := Option.none, lastTaskKey := Option.none },
     { alarmStopped := true, countdown := Option.none })
  else if (startedOf tasks now).isEmpty then
    ({ st with alarmStarted := false },
     { alarmStopped := true,
       countdown := some ⟨"No tasks started yet", TimeText.blank, Color.blue⟩ })
  else
    match selectTarget tasks now with
    | Option.none =>
      (st, { countdown := some ⟨"Set an end date/time to enable countdown",
               TimeText.blank, Color.blue⟩ })
    | some c => tickTarget c now perm st

structure TickIn where
  tasks : List Task
  now : Int
  perm : Bool
deriving Repr

/-- A run of consecutive ticks from a starting state, recording each
post-tick state with its effects. -/
def runTicks (st : EngState) : List TickIn → List (EngState × Effects)
  | [] => []
  | i :: is =>
    let r := tick i.tasks i.now i.perm st
    r :: runTicks r.1 is

/-! ## CRUD: `addTask`, `saveEdit`, `toggleTask`

The add and edit forms are date/time pickers, so their values are either
empty (modelled `Option.none`) or well-formed; `input.trim()` is modelled
by `String.trim`. -/

inductive OpError where
  | validationError
deriving DecidableEq, Repr

/-- The add-form fields (`input`, `startDate`, `startTime`, `endDate`,
`endTime`, `recurrence`).  `input` is the form text after `trim()`
(whitespace normalisation is orthogonal to every claim and `String.trim`
does not evaluate in the kernel). -/
structure AddForm where
  input : String
  startDate : Option Ymd := Option.none
  startTime : Option Nat := Option.none
  endDate : Option Ymd := Option.none
  endTime : Option Nat := Option.none
  recurrence : Recurrence := Recurrence.none
deriving Repr

/-- The task `addTask` pushes on success. -/
def mkNewTask (f : AddForm) (freshId : String) (nowIso : String) : Task :=
  { id := freshId
    title := f.input
    completed := false
    startDate := f.startDate.map DateField.ok
    startTime := f.startTime.map TimeField.tok
    endDate := (f.endDate <|> f.startDate).map DateField.ok
    endTime := f.endTime.map TimeField.tok
    recurrence := some f.recurrence
    createdAt := some nowIso }

/-- `addTask` (`page.tsx` lines 340-371): returns the error surfaced by the
`alert`, if any, and the resulting task collection (unchanged except on the
success path). -/
def addTask (f : AddForm) (freshId : String) (nowIso : String)
    (tasks : List Task) : Option OpError × List Task :=
  if f.input = "" then (Option.none, tasks)
  else
    let s := toDateTime (f.startDate.map DateField.ok) (f.startTime.map TimeField.tok)
      time0000
    let ed := toDateTime (f.endDate.map DateField.ok) (f.endTime.map TimeField.tok)
      time2359
    if (match s, ed with
        | some sv, some ev => jsLt ev sv
        | _, _ => false) then
      (some OpError.validationError, tasks)
    else
      (Option.none, tasks ++ [mkNewTask f freshId nowIso])

/-- The edit-form fields. -/
structure EditForm where
  editingId : Option String
  input : String
  startDate : Option Ymd := Option.none
  startTime : Option Nat := Option.none
  endDate : Option Ymd := Option.none
  endTime : Option Nat := Option.none
  recurrence : Recurrence := Recurrence.none
deriving Repr

/-- The update `saveEdit` applies to the task with the edited id. -/
def applyEdit (f : EditForm) (t : Task) : Task :=
  { t with
    title := if f.input = "" then t.title else f.input
    startDate := f.startDate.map DateField.ok
    startTime := f.startTime.map TimeField.tok
    endDate := (f.endDate <|> f.startDate).map DateField.ok
    endTime := f.endTime.map TimeField.tok
    recurrence := some f.recurrence }

/-- `saveEdit` (`page.tsx` lines 410-440).  Note the validation end instant
falls back through `editEndDate || editStartDate` and
`editEndTime || editStartTime || "23:59"`. -/
def saveEdit (f : EditForm) (tasks : List Task) : Option OpError × List Task :=
  match f.editingId with
  | Option.none => (Option.none, tasks)
  | some eid =>
    let s := toDateTime (f.startDate.map DateField.ok) (f.startTime.map TimeField.tok)
      time0000
    let ed := toDateTime ((f.endDate <|> f.startDate).map DateField.ok)
      (some (TimeField.tok ((f.endTime <|> f.startTime).getD 86340000))) time0000
    if (match s, ed with
        | some sv, some ev => jsLt ev sv
        | _, _ => false) then
      (some OpError.validationError, tasks)
    else
      (Option.none,
       tasks.map (fun t => if t.id = eid then applyEdit f t else t))

/-- Recurrence date computation on a stored field.  A `bad` date is truthy in
`if (!date)`, and the source would then throw inside `toISOString`; no claim
exercises that path, and it is modelled by returning the bad field. -/
def nextByRecurrenceField (d : Option DateField) (rule : Recurrence) :
    Option DateField :=
  match d with
  | Option.none => Option.none
  | some DateField.bad =>
    (match rule with
     | Recurrence.none => Option.none
     | _ => some DateField.bad)
  | some (DateField.ok x) => (nextByRecurrence (some x) rule).map DateField.ok

/-- `toggleTask` (`page.tsx` lines 373-396): flip `completed`; if the task is
now completed and recurs, push a successor with shifted dates. -/
def toggleTask (tid : String) (freshId : String) (nowIso : String)
    (tasks : List Task) : List Task :=
  let list := tasks.map (fun t =>
    if t.id = tid then { t with completed := !t.completed } else t)
  match list.find? (fun tt => tt.id = tid) with
  | Option.none => list
  | some t =>
    match t.completed, t.recurrence with
    | true, some rule =>
      if rule ≠ Recurrence.none then
        let nextStartDate := nextByRecurrenceField t.startDate rule
        let nextEndDate := nextByRecurrenceField (t.endDate <|> t.startDate) rule
        if nextStartDate.isSome ∨ nextEndDate.isSome then
          list ++ [{ id := freshId
                     title := t.title
                     completed := false
                     startDate := nextStartDate
                     startTime := t.startTime
                     endDate := nextEndDate
                     endTime := t.endTime
                     recurrence := some rule
                     createdAt := some nowIso }]
        else list
      else list
    | _, _ => list

/-! ## Statements taken from the specification wording -/

/-- The Zone Classifier rule exactly as §4.3 of the spec words it, over a
start instant (possibly absent), a due instant and `now`, all in
milliseconds: `remaining ≤ 0 → Done`; `remaining ≤ 60s → Critical`;
`remaining ≤ 300s → Imminent`; otherwise with a known start, `Warning` iff
`now ≥ start + (due − start) / 2` (exact halving, rendered integrally as
`2·now ≥ 2·start + (due − start)`), else `Normal`; with no start,
`Warning` iff `remaining ≤ 86400s`, else `Normal`. -/
def zoneSpec (start : Option Int) (due now : Int) : Zone :=
  let rem := due - now
  if rem ≤ 0 then Zone.done
  else if rem ≤ 60000 then Zone.critical
  else if rem ≤ 300000 then Zone.imminent
  else
    match start with
    | some s => if 2 * now ≥ 2 * s + (due - s) then Zone.warning else Zone.normal
    | Option.none => if rem ≤ 86400000 then Zone.warning else Zone.normal

/-! Fixture tasks for the selector example of §8: at `exampleNow`, task A is
due in 10 s with no start, task B is due in 5 s but starts in an hour, task
C started at midnight and is due in 20 s. -/

def exampleNow : Int := epochMs ⟨2024, 1, 1⟩

def exTaskA : Task :=
  { id := "A", title := "A", completed := false,
    endDate := some (DateField.ok ⟨2024, 1, 1⟩), endTime := some (TimeField.tok 10000) }

def exTaskB : Task :=
  { id := "B", title := "B", completed := false,
    startDate := some (DateField.ok ⟨2024, 1, 1⟩),
    startTime := some (TimeField.tok 3600000),
    endDate := some (DateField.ok ⟨2024, 1, 1⟩), endTime := some (TimeField.tok 5000) }

def exTaskC : Task :=
  { id := "C", title := "C", completed := false,
    startDate := some (DateField.ok ⟨2024, 1, 1⟩),
    startTime := some (TimeField.tok 0),
    endDate := some (DateField.ok ⟨2024, 1, 1⟩), endTime := some (TimeField.tok 20000) }

/-- Add-form submission with a start of 10:00 but a blank end date and an
end time of 09:00: `addTask` computes `ed = toDateTime("", "09:00") = null`,
skips the validation, and stores `endDate = startDate`, `endTime = "09:00"`. -/
def addFormEndBeforeStart : AddForm :=
  { input := "x",
    startDate := some ⟨2024, 1, 1⟩, startTime := some 36000000,
    endDate := Option.none, endTime := some 32400000 }

/-- The same field values on the edit form, whose validation end instant
falls back through `editEndDate || editStartDate`. -/
def editFormEndBeforeStart : EditForm :=
  { editingId := some "id1", input := "x",
    startDate := some ⟨2024, 1, 1⟩, startTime := some 36000000,
    endDate := Option.none, endTime := some 32400000 }

/-- Add-form submission with both dates set and no times. -/
def addFormBothDates : AddForm :=
  { input := "x", startDate := some ⟨2024, 1, 1⟩, endDate := some ⟨2024, 1, 1⟩ }

/-- A daily-recurring task starting 2024-01-31 with no end date, for the
recurrence round trip of §8. -/
def dailyTask : Task :=
  { id := "T", title := "t", completed := false,
    startDate := some (DateField.ok ⟨2024, 1, 31⟩),
    recurrence := some Recurrence.daily }

/-- An active task with no dates at all. -/
def noDatesTask : Task := { id := "N", title := "n", completed := false }

/-- An active task due 30 s after midnight 2024-01-01. -/
def criticalTask : Task :=
  { id := "a", title := "t", completed := false,
    endDate := some (DateField.ok ⟨2024, 1, 1⟩), endTime := some (TimeField.tok 30000) }

/-- The same id with an unparseable end date (possible through JSON import). -/
def badDueTask : Task :=
  { id := "a", title := "t", completed := false, endDate := some DateField.bad }

/-- How many ticks of a recorded run actually constructed a notification
with dedup key `k`. -/
def countFired (rs : List (EngState × Effects)) (k : NKey) : Nat :=
  match rs with
  | [] => 0
  | r :: rest => (if r.2.notifFired = some k then 1 else 0) + countFired rest k

/-- A stored task all of whose present date/time fields parse. -/
def TaskValid (t : Task) : Prop :=
  t.startDate ≠ some DateField.bad ∧ t.endDate ≠ some DateField.bad ∧
    t.startTime ≠ some TimeField.tbad ∧ t.endTime ≠ some TimeField.tbad

instance (t : Task) : Decidable (TaskValid t) := by unfold TaskValid; infer_instance

/-! ## Calendar lemmas -/


theorem isLeap_iff (y : Nat) :
    isLeap y = true ↔ ((y % 4 = 0 ∧ y % 100 ≠ 0) ∨ y % 400 = 0) := by
  simp [isLeap]

theorem dayFromYear_succ (y : Nat) (h : 1 ≤ y) :
    dayFromYear (y + 1) = dayFromYear y + 365 + (if isLeap y then 1 else 0) := by
  have hiff := isLeap_iff y
  cases hl : isLeap y
  · rw [hl] at hiff
    simp only [Bool.false_eq_true, false_iff] at hiff
    rw [if_neg (by simp [hl])]
    simp only [dayFromYear]
    omega
  · rw [hl] at hiff
    simp only [true_iff] at hiff
    rw [if_pos (by simp [hl])]
    simp only [dayFromYear]
    omega

theorem dayFromYear_cycle (g k : Nat) (hk : k ≤ 400) :
    dayFromYear (400 * g + k + 1) = 146097 * g + cycleDay k := by
  simp only [dayFromYear, cycleDay]
  omega

theorem dayFromYear_step_le (a : Nat) : dayFromYear a + 365 ≤ dayFromYear (a + 1) ∨ a = 0 := by
  simp only [dayFromYear]
  omega

theorem dayFromYear_mono {a b : Nat} (h : a ≤ b) : dayFromYear a ≤ dayFromYear b := by
  induction b with
  | zero => simp_all
  | succ b ih =>
    rcases Nat.lt_or_ge a (b + 1) with hlt | hge
    · have := ih (by omega)
      have h2 := dayFromYear_step_le b
      rcases h2 with h2 | rfl
      · omega
      · simp only [dayFromYear] at *; omega
    · have : a = b + 1 := by omega
      subst this; exact Nat.le_refl _

theorem yfd_boundsA (g r : Nat) (hr : r < 146097) (hc : cycleDay (r / 365) ≤ r) :
    dayFromYear (400 * g + r / 365 + 1) ≤ 146097 * g + r ∧
      146097 * g + r < dayFromYear (400 * g + r / 365 + 1 + 1) := by
  simp only [cycleDay] at hc
  have h399 : r / 365 ≤ 399 := by omega
  constructor
  · rw [dayFromYear_cycle g (r / 365) (by omega)]
    simp only [cycleDay]
    omega
  · have he : 400 * g + r / 365 + 1 + 1 = 400 * g + (r / 365 + 1) + 1 := by omega
    rw [he, dayFromYear_cycle g (r / 365 + 1) (by omega)]
    have hdi : (r / 365 + 1) / 100 ≤ (r / 365 + 1) / 4 :=
      Nat.div_le_div_left (by omega) (by omega)
    simp only [cycleDay]
    omega

theorem yfd_boundsB (g r : Nat) (hr : r < 146097) (hc : ¬ cycleDay (r / 365) ≤ r) :
    dayFromYear (400 * g + (r / 365 - 1) + 1) ≤ 146097 * g + r ∧
      146097 * g + r < dayFromYear (400 * g + (r / 365 - 1) + 1 + 1) := by
  simp only [cycleDay] at hc
  have h400 : r / 365 ≤ 400 := by omega
  have hpos : 1 ≤ r / 365 := by omega
  constructor
  · rw [dayFromYear_cycle g (r / 365 - 1) (by omega)]
    simp only [cycleDay]
    omega
  · have h1 : 400 * g + (r / 365 - 1) + 1 + 1 = 400 * g + r / 365 + 1 := by omega
    rw [h1, dayFromYear_cycle g (r / 365) (by omega)]
    simp only [cycleDay]
    omega

theorem yearFromDay_spec (n : Nat) :
    1 ≤ yearFromDay n ∧ dayFromYear (yearFromDay n) ≤ n ∧
      n < dayFromYear (yearFromDay n + 1) := by
  have hn : n = 146097 * (n / 146097) + n % 146097 := by omega
  by_cases hc : cycleDay (n % 146097 / 365) ≤ n % 146097
  · have h := yfd_boundsA (n / 146097) (n % 146097) (by omega) hc
    have hy : yearFromDay n = 400 * (n / 146097) + n % 146097 / 365 + 1 := by
      simp only [yearFromDay, hc, if_true]
    rw [hy]
    exact ⟨by omega, by omega, by omega⟩
  · have h := yfd_boundsB (n / 146097) (n % 146097) (by omega) hc
    have hy : yearFromDay n = 400 * (n / 146097) + (n % 146097 / 365 - 1) + 1 := by
      simp only [yearFromDay, hc, if_false]
    rw [hy]
    exact ⟨by omega, by omega, by omega⟩

theorem yearFromDay_unique {n y : Nat} (_hy : 1 ≤ y)
    (h1 : dayFromYear y ≤ n) (h2 : n < dayFromYear (y + 1)) :
    yearFromDay n = y := by
  obtain ⟨hy', hle, hlt⟩ := yearFromDay_spec n
  set y' := yearFromDay n
  rcases Nat.lt_trichotomy y' y with h | h | h
  · have : y' + 1 ≤ y := by omega
    have := dayFromYear_mono this
    omega
  · exact h
  · have : y + 1 ≤ y' := by omega
    have := dayFromYear_mono this
    omega

theorem monthStart_add_len (leap : Bool) (m : Nat) (h1 : 1 ≤ m) (h2 : m ≤ 11) :
    monthStart leap (m + 1) = monthStart leap m + monthLen leap m := by
  interval_cases m <;> cases leap <;> simp [monthStart, monthLen]

theorem monthStart_last (leap : Bool) :
    monthStart leap 12 + monthLen leap 12 = 365 + (if leap then 1 else 0) := by
  cases leap <;> simp [monthStart, monthLen]

theorem doy_lt_year (leap : Bool) (m d : Nat) (h1 : 1 ≤ m) (h2 : m ≤ 12)
    (h3 : 1 ≤ d) (h4 : d ≤ monthLen leap m) :
    monthStart leap m + (d - 1) < 365 + (if leap then 1 else 0) := by
  interval_cases m <;> cases leap <;> simp_all [monthStart, monthLen] <;> omega

theorem monthFromDoy_eq (leap : Bool) (m doy : Nat) (h1 : 1 ≤ m) (h2 : m ≤ 12)
    (hlo : monthStart leap m ≤ doy) (hhi : doy < monthStart leap m + monthLen leap m) :
    monthFromDoy leap doy = m := by
  have key : ∀ m1 < 12, ∀ k < monthLen leap (m1 + 1),
      monthFromDoy leap (monthStart leap (m1 + 1) + k) = m1 + 1 := by
    cases leap <;> decide
  obtain ⟨m1, rfl⟩ : ∃ m1, m = m1 + 1 := ⟨m - 1, by omega⟩
  obtain ⟨k, hk, rfl⟩ : ∃ k, k < monthLen leap (m1 + 1) ∧
      doy = monthStart leap (m1 + 1) + k :=
    ⟨doy - monthStart leap (m1 + 1), by omega, by omega⟩
  exact key m1 (by omega) k hk

theorem monthFromDoy_bounds (leap : Bool) (doy : Nat)
    (h : doy < 365 + (if leap then 1 else 0)) :
    1 ≤ monthFromDoy leap doy ∧ monthFromDoy leap doy ≤ 12 ∧
      monthStart leap (monthFromDoy leap doy) ≤ doy ∧
      doy < monthStart leap (monthFromDoy leap doy) + monthLen leap (monthFromDoy leap doy) := by
  have keyF : ∀ k < 365, 1 ≤ monthFromDoy false k ∧ monthFromDoy false k ≤ 12 ∧
      monthStart false (monthFromDoy false k) ≤ k ∧
      k < monthStart false (monthFromDoy false k) + monthLen false (monthFromDoy false k) := by
    decide
  have keyT : ∀ k < 366, 1 ≤ monthFromDoy true k ∧ monthFromDoy true k ≤ 12 ∧
      monthStart true (monthFromDoy true k) ≤ k ∧
      k < monthStart true (monthFromDoy true k) + monthLen true (monthFromDoy true k) := by
    decide
  cases leap
  · exact keyF doy (by simp at h; omega)
  · exact keyT doy (by simp at h; omega)

theorem dayNumber_sandwich (x : Ymd) (h : ymdValid x) :
    dayFromYear x.y ≤ dayNumber x ∧ dayNumber x < dayFromYear (x.y + 1) := by
  obtain ⟨hy, hm1, hm2, hd1, hd2⟩ := h
  have hdoy := doy_lt_year (isLeap x.y) x.m x.d hm1 hm2 hd1 hd2
  rw [dayFromYear_succ x.y hy]
  unfold dayNumber
  omega

theorem daysInMonth_def (y m : Nat) : daysInMonth y m = monthLen (isLeap y) m := rfl

theorem civilFromDay_eq (n : Nat) :
    civilFromDay n =
      ⟨yearFromDay n,
        monthFromDoy (isLeap (yearFromDay n)) (n - dayFromYear (yearFromDay n)),
        (n - dayFromYear (yearFromDay n)) -
          monthStart (isLeap (yearFromDay n))
            (monthFromDoy (isLeap (yearFromDay n)) (n - dayFromYear (yearFromDay n))) + 1⟩ :=
  rfl

theorem dayNumber_mk (a b c : Nat) :
    dayNumber ⟨a, b, c⟩ = dayFromYear a + monthStart (isLeap a) b + (c - 1) := rfl

/-- Civil round trip: a valid date is recovered from its day number. -/
theorem civil_roundTrip (x : Ymd) (h : ymdValid x) : civilFromDay (dayNumber x) = x := by
  obtain ⟨hy, hm1, hm2, hd1, hd2⟩ := h
  rw [daysInMonth_def] at hd2
  have hs := dayNumber_sandwich x ⟨hy, hm1, hm2, hd1, by rwa [daysInMonth_def]⟩
  have hyr : yearFromDay (dayNumber x) = x.y := yearFromDay_unique hy hs.1 hs.2
  have hdn : dayNumber x = dayFromYear x.y + monthStart (isLeap x.y) x.m + (x.d - 1) := rfl
  have hdoy : dayNumber x - dayFromYear x.y = monthStart (isLeap x.y) x.m + (x.d - 1) := by
    omega
  have hmd : monthFromDoy (isLeap x.y) (monthStart (isLeap x.y) x.m + (x.d - 1)) = x.m :=
    monthFromDoy_eq _ _ _ hm1 hm2 (by omega) (by omega)
  rw [civilFromDay_eq, hyr, hdoy, hmd]
  have h3 : monthStart (isLeap x.y) x.m + (x.d - 1) - monthStart (isLeap x.y) x.m + 1 = x.d := by
    omega
  rw [h3]

/-- Every day number denotes a valid civil date, and the maps are inverse. -/
theorem civilFromDay_spec (n : Nat) :
    ymdValid (civilFromDay n) ∧ dayNumber (civilFromDay n) = n := by
  obtain ⟨hy1, hle, hlt⟩ := yearFromDay_spec n
  rw [dayFromYear_succ _ hy1] at hlt
  have hdoy : n - dayFromYear (yearFromDay n) < 365 +
      (if isLeap (yearFromDay n) then 1 else 0) := by omega
  obtain ⟨hb1, hb2, hb3, hb4⟩ := monthFromDoy_bounds (isLeap (yearFromDay n)) _ hdoy
  rw [civilFromDay_eq]
  constructor
  · unfold ymdValid
    dsimp only
    exact ⟨hy1, hb1, hb2, by omega, by rw [daysInMonth_def]; omega⟩
  · rw [dayNumber_mk]
    omega

theorem ymdValid_mk (a b c : Nat) :
    ymdValid ⟨a, b, c⟩ ↔ 1 ≤ a ∧ 1 ≤ b ∧ b ≤ 12 ∧ 1 ≤ c ∧ c ≤ daysInMonth a b :=
  Iff.rfl

theorem monthLen_pos (leap : Bool) (m : Nat) : 1 ≤ monthLen leap m := by
  unfold monthLen
  split_ifs <;> omega

theorem nextCalendarDay_valid (x : Ymd) (h : ymdValid x) : ymdValid (nextCalendarDay x) := by
  obtain ⟨hy, hm1, hm2, hd1, hd2⟩ := h
  unfold nextCalendarDay
  split_ifs with h1 h2
  · rw [ymdValid_mk]
    exact ⟨hy, hm1, hm2, by omega, by omega⟩
  · rw [ymdValid_mk]
    refine ⟨hy, by omega, by omega, by omega, ?_⟩
    rw [daysInMonth_def]
    exact monthLen_pos _ _
  · rw [ymdValid_mk]
    refine ⟨by omega, by omega, by omega, by omega, ?_⟩
    rw [daysInMonth_def]
    exact monthLen_pos _ _

theorem monthLen_twelve (leap : Bool) : monthLen leap 12 = 31 := by
  unfold monthLen
  norm_num

theorem monthStart_one (leap : Bool) : monthStart leap 1 = 0 := by
  cases leap <;> rfl

theorem monthStart_twelve (leap : Bool) :
    monthStart leap 12 = 334 + (if leap then 1 else 0) := by
  cases leap <;> rfl

theorem dayNumber_nextCalendarDay (x : Ymd) (h : ymdValid x) :
    dayNumber (nextCalendarDay x) = dayNumber x + 1 := by
  obtain ⟨hy, hm1, hm2, hd1, hd2⟩ := h
  rw [daysInMonth_def] at hd2
  have hdn : dayNumber x = dayFromYear x.y + monthStart (isLeap x.y) x.m + (x.d - 1) := rfl
  unfold nextCalendarDay
  split_ifs with h1 h2
  · rw [dayNumber_mk]
    rw [daysInMonth_def] at h1
    omega
  · rw [dayNumber_mk]
    have := monthStart_add_len (isLeap x.y) x.m hm1 (by omega)
    rw [daysInMonth_def] at h1
    omega
  · rw [dayNumber_mk]
    have hm12 : x.m = 12 := by omega
    rw [daysInMonth_def, hm12, monthLen_twelve] at h1
    have hd31 : x.d = 31 := by
      rw [hm12, monthLen_twelve] at hd2
      omega
    rw [dayFromYear_succ x.y hy, monthStart_one, hdn, hm12, hd31, monthStart_twelve]
    cases hl : isLeap x.y <;> simp [hl]

theorem civilFromDay_succ (n : Nat) :
    civilFromDay (n + 1) = nextCalendarDay (civilFromDay n) := by
  obtain ⟨hv, hdn⟩ := civilFromDay_spec n
  have h2 : dayNumber (nextCalendarDay (civilFromDay n)) = n + 1 := by
    rw [dayNumber_nextCalendarDay _ hv, hdn]
  calc civilFromDay (n + 1)
      = civilFromDay (dayNumber (nextCalendarDay (civilFromDay n))) := by rw [h2]
    _ = nextCalendarDay (civilFromDay n) := civil_roundTrip _ (nextCalendarDay_valid _ hv)

theorem civilFromDay_add (n k : Nat) :
    civilFromDay (n + k) = nextCalendarDays k (civilFromDay n) := by
  induction k with
  | zero => rfl
  | succ k ih =>
    have : n + (k + 1) = (n + k) + 1 := by omega
    rw [this, civilFromDay_succ, ih]
    rfl


/-! ## Claim C1: the Zone Classifier -/

/-- C1: for every selected target with start instant `start` (possibly
absent), due instant `due` and current time `now`, the classifier
(`classifyZone`, the color chain of the countdown effect) returns exactly
the zones the spec lists, with all boundaries inclusive: `Done` iff
`remaining ≤ 0`, `Critical` iff `0 < remaining ≤ 60s`, `Imminent` iff
`60s < remaining ≤ 300s`, and beyond `300s` the halfway rule (start known)
or the inclusive 24-hour rule (start unknown) decides `Warning` versus
`Normal`. -/
theorem claim_C1_zone_classifier (start : Option Int) (due now : Int) :
    classifyZone (start.map JsTime.fin) due now = zoneSpec start due now := by
  rcases start with _ | s <;>
    simp only [classifyZone, zoneSpec, tickColor, halfReached, Option.map_none',
      Option.map_some', zoneOfColor, decide_eq_true_eq] <;>
    split_ifs <;> first | rfl | omega

/-! ## Claim C2: the Target Selector -/

theorem TaskValid.dueOf_not_nan {t : Task} (h : TaskValid t) :
    (dueOf t).isNaN = false := by
  obtain ⟨h1, h2, h3, h4⟩ := h
  unfold dueOf toDateTime
  rcases he : t.endDate with _ | ⟨_ | _⟩ <;> rcases hs : t.startDate with _ | ⟨_ | _⟩ <;>
    rcases het : t.endTime with _ | ⟨_ | _⟩ <;> rcases hst : t.startTime with _ | ⟨_ | _⟩ <;>
    simp_all [Option.orElse, JsTime.isNaN, time2359]

theorem jsLt_iff {a b : JsTime} (ha : a.isNaN = false) (hb : b.isNaN = false) :
    jsLt a b = true ↔ a.ms < b.ms := by
  cases a <;> cases b <;> simp_all [jsLt, JsTime.ms, JsTime.isNaN]

/-- `firstMin c cs` is the first element of `c :: cs` attaining the minimal
due instant (all dues finite): everything before it is strictly later, and
nothing anywhere is earlier. -/
theorem firstMin_split (c : Cand) (cs : List Cand)
    (hfin : ∀ x ∈ c :: cs, x.due.isNaN = false) :
    ∃ l1 l2, c :: cs = l1 ++ firstMin c cs :: l2 ∧
      (∀ x ∈ l1, (firstMin c cs).due.ms < x.due.ms) ∧
      (∀ x ∈ c :: cs, (firstMin c cs).due.ms ≤ x.due.ms) := by
  induction cs generalizing c with
  | nil =>
    refine ⟨[], [], rfl, by simp, ?_⟩
    intro x hx
    simp only [List.mem_singleton] at hx
    subst hx
    exact Int.le_refl _
  | cons x rest ih =>
    have hstep : firstMin c (x :: rest) = firstMin (if jsLt x.due c.due then x else c) rest :=
      rfl
    have hcf : c.due.isNaN = false := hfin c (by simp)
    have hxf : x.due.isNaN = false := hfin x (by simp)
    by_cases hx : jsLt x.due c.due = true
    · have hlt : x.due.ms < c.due.ms := (jsLt_iff hxf hcf).mp hx
      rw [hstep, if_pos hx]
      have hfin2 : ∀ z ∈ x :: rest, z.due.isNaN = false := by
        intro z hz
        apply hfin
        simp only [List.mem_cons] at hz ⊢
        tauto
      obtain ⟨l1, l2, hsp, hl1, hmin⟩ := ih x hfin2
      refine ⟨c :: l1, l2, by rw [List.cons_append, ← hsp], ?_, ?_⟩
      · intro z hz
        rcases List.mem_cons.mp hz with rfl | hz
        · have hxx : (firstMin x rest).due.ms ≤ x.due.ms := hmin x (by simp)
          omega
        · exact hl1 z hz
      · intro z hz
        rcases List.mem_cons.mp hz with rfl | hz
        · have hxx : (firstMin x rest).due.ms ≤ x.due.ms := hmin x (by simp)
          omega
        · exact hmin z hz
    · have hge : c.due.ms ≤ x.due.ms := by
        have := (jsLt_iff hxf hcf).not.mp hx
        omega
      rw [hstep, if_neg hx]
      have hfin2 : ∀ z ∈ c :: rest, z.due.isNaN = false := by
        intro z hz
        apply hfin
        simp only [List.mem_cons] at hz ⊢
        tauto
      obtain ⟨l1, l2, hsp, hl1, hmin⟩ := ih c hfin2
      rcases l1 with _ | ⟨c', l1'⟩
      · simp only [List.nil_append] at hsp
        have hc : c = firstMin c rest := by
          injection hsp with h1 _
        refine ⟨[], x :: rest, ?_, by simp, ?_⟩
        · rw [← hc]
          rfl
        · intro z hz
          rcases List.mem_cons.mp hz with rfl | hz
          · rw [← hc]
          · rcases List.mem_cons.mp hz with rfl | hz
            · rw [← hc]; omega
            · exact hmin z (by simp [hz])
      · rw [List.cons_append] at hsp
        injection hsp with h1 h2
        subst h1
        have hcl1 : (firstMin c rest).due.ms < c.due.ms := hl1 c (by simp)
        refine ⟨c :: x :: l1', l2, ?_, ?_, ?_⟩
        · simp only [List.cons_append]
          rw [← h2]
        · intro z hz
          rcases List.mem_cons.mp hz with rfl | hz
          · omega
          · rcases List.mem_cons.mp hz with rfl | hz
            · omega
            · exact hl1 z (by simp [hz])
        · intro z hz
          rcases List.mem_cons.mp hz with rfl | hz
          · omega
          · rcases List.mem_cons.mp hz with rfl | hz
            · omega
            · exact hmin z (by simp [hz])

/-- Splits of a mapped list come from splits of the original list. -/
theorem map_eq_append_cons {α β : Type} (f : α → β) (l : List α) (l1 l2 : List β)
    (x : β) (h : l.map f = l1 ++ x :: l2) :
    ∃ m1 t m2, l = m1 ++ t :: m2 ∧ m1.map f = l1 ∧ f t = x ∧ m2.map f = l2 := by
  induction l generalizing l1 with
  | nil => simp at h
  | cons a as ih =>
    rcases l1 with _ | ⟨b, l1'⟩
    · simp only [List.map_cons, List.nil_append] at h
      injection h with h1 h2
      exact ⟨[], a, as, by simp, rfl, h1, h2⟩
    · simp only [List.map_cons, List.cons_append] at h
      injection h with h1 h2
      obtain ⟨m1, t, m2, hsp, hm1, ht, hm2⟩ := ih l1' h2
      exact ⟨a :: m1, t, m2, by simp [hsp], by simp [hm1, h1], ht, hm2⟩

theorem candListOf_eq_map (tasks : List Task) (now : Int)
    (hvalid : ∀ t ∈ tasks, TaskValid t) :
    candListOf tasks now = (startedOf tasks now).map mkCand := by
  unfold candListOf
  apply List.filter_eq_self.mpr
  intro c hc
  obtain ⟨t, ht, rfl⟩ := List.mem_map.mp hc
  have htask : t ∈ tasks := by
    unfold startedOf activeOf at ht
    exact (List.mem_filter.mp (List.mem_filter.mp ht).1).1
  have hnan := (hvalid t htask).dueOf_not_nan
  simp [mkCand, hnan]

/-- C2: whenever the Target Selector picks a candidate, that candidate is
the first (in original list order) active started task whose due instant is
minimal over all active started tasks; and on the §8 example — A due in
10 s with no start, B due in 5 s but not yet started, C started and due in
20 s — the selected target is A. -/
theorem claim_C2_target_selector :
    (∀ (tasks : List Task) (now : Int) (c : Cand),
      (∀ t ∈ tasks, TaskValid t) → selectTarget tasks now = some c →
      c = mkCand c.task ∧
      ∃ l1 l2, startedOf tasks now = l1 ++ c.task :: l2 ∧
        (∀ t ∈ l1, (dueOf c.task).ms < (dueOf t).ms) ∧
        (∀ t ∈ startedOf tasks now, (dueOf c.task).ms ≤ (dueOf t).ms)) ∧
    selectTarget [exTaskA, exTaskB, exTaskC] exampleNow = some (mkCand exTaskA) := by
  constructor
  · intro tasks now c hvalid hsel
    unfold selectTarget at hsel
    rcases hcl : candListOf tasks now with _ | ⟨c0, cs⟩ <;> rw [hcl] at hsel
    · exact absurd hsel (by simp)
    · have hc : c = firstMin c0 cs := by
        injection hsel with h
        exact h.symm
      have hfin : ∀ x ∈ c0 :: cs, x.due.isNaN = false := by
        intro x hx
        rw [← hcl] at hx
        unfold candListOf at hx
        have := List.of_mem_filter hx
        simpa using this
      obtain ⟨l1, l2, hsp, hl1, hmin⟩ := firstMin_split c0 cs hfin
      have hmapeq : (startedOf tasks now).map mkCand = c0 :: cs := by
        rw [← candListOf_eq_map tasks now hvalid, hcl]
      have hsplit2 : (startedOf tasks now).map mkCand =
          l1 ++ firstMin c0 cs :: l2 := by rw [hmapeq, hsp]
      obtain ⟨m1, t, m2, hsm, hm1, htc, hm2⟩ :=
        map_eq_append_cons mkCand (startedOf tasks now) l1 l2 (firstMin c0 cs) hsplit2
      have hctask : c.task = t := by rw [hc, ← htc]; rfl
      have hcdue : (dueOf c.task).ms = (firstMin c0 cs).due.ms := by
        rw [hctask, ← htc]
        rfl
      refine ⟨?_, m1, m2, ?_, ?_, ?_⟩
      · rw [hc, ← htc]
        rfl
      · rw [hsm, hctask]
      · intro t' ht'
        have hmem : mkCand t' ∈ l1 := by
          rw [← hm1]
          exact List.mem_map_of_mem mkCand ht'
        have := hl1 (mkCand t') hmem
        rw [hcdue]
        exact this
      · intro t' ht'
        have hmem : mkCand t' ∈ c0 :: cs := by
          rw [← hmapeq]
          exact List.mem_map_of_mem mkCand ht'
        have := hmin (mkCand t') hmem
        rw [hcdue]
        exact this
  · decide

theorem claim_C2_target_selector_witness :
    mkCand exTaskA = mkCand (mkCand exTaskA).task ∧
      ∃ l1 l2, startedOf [exTaskA] exampleNow = l1 ++ (mkCand exTaskA).task :: l2 ∧
        (∀ t ∈ l1, (dueOf (mkCand exTaskA).task).ms < (dueOf t).ms) ∧
        (∀ t ∈ startedOf [exTaskA] exampleNow,
          (dueOf (mkCand exTaskA).task).ms ≤ (dueOf t).ms) :=
  claim_C2_target_selector.1 [exTaskA] exampleNow (mkCand exTaskA)
    (by decide) (by decide)

/-! ## Claims C6, C7, C10: create and edit -/

/-- C6: on a create or edit submission whose start date and end date are
both set (the data-model invariant makes the title non-empty, and an edit
runs only with an `editingId`), the operation fails with the validation
error exactly when the computed end instant is earlier than the computed
start instant, and a failed operation leaves the task collection
unchanged.  The end instant of a create is `endDate` + (`endTime` or
23:59); for an edit the time falls back through
`editEndTime || editStartTime || "23:59"`. -/
theorem claim_C6_validation_iff :
    (∀ (f : AddForm) (freshId nowIso : String) (tasks : List Task) (sd edd : Ymd),
      f.input ≠ "" → f.startDate = some sd → f.endDate = some edd →
      (((addTask f freshId nowIso tasks).1 = some OpError.validationError) ↔
        epochMs edd + (f.endTime.getD 86340000 : Nat) <
          epochMs sd + (f.startTime.getD 0 : Nat)) ∧
      ((addTask f freshId nowIso tasks).1 ≠ Option.none →
        (addTask f freshId nowIso tasks).2 = tasks)) ∧
    (∀ (f : EditForm) (tasks : List Task) (eid : String) (sd edd : Ymd),
      f.editingId = some eid → f.startDate = some sd → f.endDate = some edd →
      (((saveEdit f tasks).1 = some OpError.validationError) ↔
        epochMs edd + ((f.endTime <|> f.startTime).getD 86340000 : Nat) <
          epochMs sd + (f.startTime.getD 0 : Nat)) ∧
      ((saveEdit f tasks).1 ≠ Option.none → (saveEdit f tasks).2 = tasks)) := by
  constructor
  · intro f freshId nowIso tasks sd edd htrim hsd hedd
    unfold addTask
    rw [if_neg htrim, hsd, hedd]
    rcases f.startTime with _ | st <;> rcases f.endTime with _ | et <;>
      simp only [Option.map_some', Option.map_none', toDateTime, Option.getD,
        time0000, time2359, jsLt] <;>
      split_ifs with h <;>
      simp_all
  · intro f tasks eid sd edd heid hsd hedd
    unfold saveEdit
    rw [heid, hsd, hedd]
    rcases f.startTime with _ | st <;> rcases f.endTime with _ | et <;>
      simp only [Option.map_some', Option.map_none', HOrElse.hOrElse, OrElse.orElse,
        Option.orElse, toDateTime, Option.getD, time0000, time2359, jsLt] <;>
      split_ifs with h <;>
      simp_all

theorem claim_C6_validation_iff_witness :
    (((addTask addFormBothDates "i" "n" []).1 = some OpError.validationError) ↔
      epochMs ⟨2024, 1, 1⟩ + (addFormBothDates.endTime.getD 86340000 : Nat) <
        epochMs ⟨2024, 1, 1⟩ + (addFormBothDates.startTime.getD 0 : Nat)) ∧
    ((addTask addFormBothDates "i" "n" []).1 ≠ Option.none →
      (addTask addFormBothDates "i" "n" []).2 = []) :=
  claim_C6_validation_iff.1 addFormBothDates
    "i" "n" [] ⟨2024, 1, 1⟩ ⟨2024, 1, 1⟩ (by decide) rfl rfl

/-- C7 fails on the code: `addTask` validates only when the end-date field
is supplied.  With a start of 10:00, a blank end date and an end time of
09:00 it stores a task whose end instant (same date, 09:00) precedes its
start instant (10:00); `saveEdit` rejects exactly these field values, which
marks the missing fallback in `addTask` as the slip. -/
theorem claim_C7_invariant_violated_by_addTask :
    (addTask addFormEndBeforeStart "id1" "t0" []).1 = Option.none ∧
    (addTask addFormEndBeforeStart "id1" "t0" []).2 =
      [{ id := "id1", title := "x", completed := false,
         startDate := some (DateField.ok ⟨2024, 1, 1⟩),
         startTime := some (TimeField.tok 36000000),
         endDate := some (DateField.ok ⟨2024, 1, 1⟩),
         endTime := some (TimeField.tok 32400000),
         recurrence := some Recurrence.none, createdAt := some "t0" }] ∧
    (∀ t ∈ (addTask addFormEndBeforeStart "id1" "t0" []).2,
      jsLt ((toDateTime t.endDate t.endTime time2359).getD JsTime.nan)
        ((toDateTime t.startDate t.startTime time0000).getD JsTime.nan) = true) ∧
    (saveEdit editFormEndBeforeStart
        [{ id := "id1", title := "x", completed := false }]).1 =
      some OpError.validationError := by
  refine ⟨rfl, rfl, ?_, rfl⟩
  decide

/-- C10: every task written by `addTask` or `saveEdit` has an end date
whenever it has a start date; when the end-date field is blank but a start
date is given, the start date itself is stored as `endDate`. -/
theorem claim_C10_end_date_defaults_to_start :
    (∀ (f : AddForm) (freshId nowIso : String) (tasks : List Task) (t : Task),
      t ∈ (addTask f freshId nowIso tasks).2 → t ∈ tasks ∨
      ((t.startDate.isSome → t.endDate.isSome) ∧
        (f.endDate = Option.none → ∀ d, f.startDate = some d →
          t.endDate = some (DateField.ok d)))) ∧
    (∀ (f : EditForm) (tasks : List Task) (t : Task),
      t ∈ (saveEdit f tasks).2 → t ∈ tasks ∨
      ((t.startDate.isSome → t.endDate.isSome) ∧
        (f.endDate = Option.none → ∀ d, f.startDate = some d →
          t.endDate = some (DateField.ok d)))) := by
  constructor
  · intro f freshId nowIso tasks t hmem
    simp only [addTask] at hmem
    split_ifs at hmem with h1 h2
    · exact Or.inl hmem
    · exact Or.inl hmem
    · rcases List.mem_append.mp hmem with hm | hm
      · exact Or.inl hm
      · right
        have ht : t = mkNewTask f freshId nowIso := by simpa using hm
        subst ht
        constructor
        · intro hs
          unfold mkNewTask at hs ⊢
          rcases he : f.endDate with _ | e <;> rcases hst : f.startDate with _ | s <;>
            simp_all [Option.orElse]
        · intro hnone d hsd
          unfold mkNewTask
          simp [hnone, hsd, Option.orElse]
  · intro f tasks t hmem
    simp only [saveEdit] at hmem
    rcases hid : f.editingId with _ | eid <;> rw [hid] at hmem
    · exact Or.inl hmem
    · split_ifs at hmem with h1
      · exact Or.inl hmem
      · simp only at hmem
        obtain ⟨t0, ht0, hteq⟩ := List.mem_map.mp hmem
        by_cases hide : t0.id = eid
        · rw [if_pos hide] at hteq
          right
          subst hteq
          constructor
          · intro hs
            unfold applyEdit at hs ⊢
            rcases he : f.endDate with _ | e <;> rcases hst : f.startDate with _ | s <;>
              simp_all [Option.orElse]
          · intro hnone d hsd
            unfold applyEdit
            simp [hnone, hsd, Option.orElse]
        · rw [if_neg hide] at hteq
          exact Or.inl (hteq ▸ ht0)

/-! ## Tick dispatch and per-branch facts -/

theorem colorOfZone_zoneOfColor (c : Color) : colorOfZone (zoneOfColor c) = c := by
  cases c <;> rfl

theorem classifyZone_done_iff (start : Option JsTime) (due now : Int) :
    classifyZone start due now = Zone.done ↔ due - now ≤ 0 := by
  rcases start with _ | ⟨v⟩ | _ <;>
    simp only [classifyZone, tickColor, halfReached, zoneOfColor] <;>
    split_ifs <;> simp_all

theorem classifyZone_critical_iff (start : Option JsTime) (due now : Int) :
    classifyZone start due now = Zone.critical ↔ (0 < due - now ∧ due - now ≤ 60000) := by
  rcases start with _ | ⟨v⟩ | _ <;>
    simp only [classifyZone, tickColor, halfReached, zoneOfColor] <;>
    split_ifs <;> simp_all

theorem classifyZone_imminent_iff (start : Option JsTime) (due now : Int) :
    classifyZone start due now = Zone.imminent ↔
      (60000 < due - now ∧ due - now ≤ 300000) := by
  rcases start with _ | ⟨v⟩ | _ <;>
    simp only [classifyZone, tickColor, halfReached, zoneOfColor] <;>
    split_ifs <;> simp_all <;> omega

/-- The four-way dispatch of one tick, pairing each branch of the effect
body with the corresponding outcome. -/
theorem tick_cases (tasks : List Task) (now : Int) (perm : Bool) (st : EngState) :
    ((activeOf tasks).isEmpty = true ∧ outcomeOf tasks now = TickOutcome.noActive ∧
      tick tasks now perm st =
        ({ st with alarmStarted := false, lastColor := Option.none, lastTaskKey := Option.none },
         { alarmStopped := true, countdown := Option.none })) ∨
    (¬ (activeOf tasks).isEmpty = true ∧ (startedOf tasks now).isEmpty = true ∧
      outcomeOf tasks now = TickOutcome.noneStarted ∧
      tick tasks now perm st =
        ({ st with alarmStarted := false },
         { alarmStopped := true,
           countdown := some ⟨"No tasks started yet", TimeText.blank, Color.blue⟩ })) ∨
    (¬ (activeOf tasks).isEmpty = true ∧ ¬ (startedOf tasks now).isEmpty = true ∧
      selectTarget tasks now = Option.none ∧
      outcomeOf tasks now = TickOutcome.noDeadline ∧
      tick tasks now perm st =
        (st, { countdown := some ⟨"Set an end date/time to enable countdown",
                 TimeText.blank, Color.blue⟩ })) ∨
    (∃ c, ¬ (activeOf tasks).isEmpty = true ∧ ¬ (startedOf tasks now).isEmpty = true ∧
      selectTarget tasks now = some c ∧
      outcomeOf tasks now = TickOutcome.target (classifyZone c.start c.due.ms now) ∧
      tick tasks now perm st = tickTarget c now perm st) := by
  by_cases hA : (activeOf tasks).isEmpty = true
  · exact Or.inl ⟨hA, by simp [outcomeOf, hA], by simp [tick, hA]⟩
  · by_cases hS : (startedOf tasks now).isEmpty = true
    · exact Or.inr (Or.inl ⟨hA, hS, by simp [outcomeOf, hA, hS], by simp [tick, hA, hS]⟩)
    · rcases hT : selectTarget tasks now with _ | c
      · exact Or.inr (Or.inr (Or.inl ⟨hA, hS, rfl,
          by simp [outcomeOf, hA, hS, hT], by simp [tick, hA, hS, hT]⟩))
      · exact Or.inr (Or.inr (Or.inr ⟨c, hA, hS, rfl,
          by simp [outcomeOf, hA, hS, hT], by simp [tick, hA, hS, hT]⟩))

theorem tickTarget_done_facts (c : Cand) (now : Int) (perm : Bool) (st : EngState)
    (h : c.due.ms - now ≤ 0) :
    (tickTarget c now perm st).1.alarmStarted = false ∧
    (tickTarget c now perm st).2.alarmPlayed = false ∧
    (tickTarget c now perm st).2.alarmStopped = true ∧
    (tickTarget c now perm st).2.chimePlayed = false ∧
    (tickTarget c now perm st).2.notifAttempt = Option.none ∧
    (tickTarget c now perm st).2.notifFired = Option.none ∧
    (tickTarget c now perm st).1.notified = st.notified ∧
    (tickTarget c now perm st).1.lastTaskKey = some (targetKey c) ∧
    (tickTarget c now perm st).1.lastColor =
      (if st.lastTaskKey = some (targetKey c) then st.lastColor else Option.none) := by
  by_cases hr : st.lastTaskKey = some (targetKey c) <;>
    simp [tickTarget, hr, h]

theorem tickTarget_live_facts (c : Cand) (now : Int) (perm : Bool) (st : EngState)
    (h : 0 < c.due.ms - now) :
    (tickTarget c now perm st).1.lastColor = some (tickColor c.start c.due.ms now) ∧
    (tickTarget c now perm st).1.lastTaskKey = some (targetKey c) ∧
    ((tickTarget c now perm st).2.chimePlayed = true ↔
      (st.lastColor.isSome = true ∧ some (tickColor c.start c.due.ms now) ≠ st.lastColor ∧
        60000 < c.due.ms - now)) ∧
    ((tickTarget c now perm st).2.alarmPlayed = true ↔
      (c.due.ms - now ≤ 60000 ∧ st.alarmStarted = false)) ∧
    (c.due.ms - now ≤ 60000 →
      ((tickTarget c now perm st).1.alarmStarted = true ↔
        (st.alarmStarted = false ∨ st.lastTaskKey = some (targetKey c)))) ∧
    (60000 < c.due.ms - now →
      ((tickTarget c now perm st).1.alarmStarted = false ∧
        (st.alarmStarted = true → (tickTarget c now perm st).2.alarmStopped = true))) ∧
    (tickTarget c now perm st).2.notifAttempt =
      (if c.due.ms - now ≤ 300000 then some (notifKey c.task) else Option.none) ∧
    (tickTarget c now perm st).1.notified =
      (if c.due.ms - now ≤ 300000 then
        (show5minNotification perm (notifKey c.task) st.notified).1 else st.notified) ∧
    (tickTarget c now perm st).2.notifFired =
      (if c.due.ms - now ≤ 300000 then
        (show5minNotification perm (notifKey c.task) st.notified).2 else Option.none) := by
  have hne : ¬ (c.due.ms - now ≤ 0) := by omega
  by_cases hr : st.lastTaskKey = some (targetKey c) <;>
    by_cases h60 : c.due.ms - now ≤ 60000 <;>
    by_cases h300 : c.due.ms - now ≤ 300000 <;>
    by_cases hal : st.alarmStarted = true <;>
    simp [tickTarget, hr, h60, h300, hal, hne]

theorem tick_critical_facts (tasks : List Task) (now : Int) (perm : Bool)
    (st : EngState) (h : outcomeOf tasks now = TickOutcome.target Zone.critical) :
    ∃ c, selectTarget tasks now = some c ∧
      ((tick tasks now perm st).2.alarmPlayed = true ↔ st.alarmStarted = false) ∧
      ((tick tasks now perm st).1.alarmStarted = true ↔
        (st.alarmStarted = false ∨ st.lastTaskKey = some (targetKey c))) := by
  rcases tick_cases tasks now perm st with ⟨hA, ho, ht⟩ | ⟨hA, hS, ho, ht⟩ |
    ⟨hA, hS, hsel, ho, ht⟩ | ⟨c, hA, hS, hsel, ho, ht⟩
  · rw [ho] at h; exact absurd h (by simp)
  · rw [ho] at h; exact absurd h (by simp)
  · rw [ho] at h; exact absurd h (by simp)
  · rw [ho] at h
    injection h with hz
    rw [classifyZone_critical_iff] at hz
    have live := tickTarget_live_facts c now perm st hz.1
    refine ⟨c, hsel, ?_, ?_⟩
    · rw [ht]
      constructor
      · intro hp
        exact ((live.2.2.2.1).mp hp).2
      · intro hf
        exact (live.2.2.2.1).mpr ⟨hz.2, hf⟩
    · rw [ht]
      exact live.2.2.2.2.1 hz.2

theorem tick_noncritical_off (tasks : List Task) (now : Int) (perm : Bool)
    (st : EngState)
    (h1 : outcomeOf tasks now ≠ TickOutcome.target Zone.critical)
    (h2 : outcomeOf tasks now ≠ TickOutcome.noDeadline) :
    (tick tasks now perm st).1.alarmStarted = false ∧
    (tick tasks now perm st).2.alarmPlayed = false ∧
    (st.alarmStarted = true → (tick tasks now perm st).2.alarmStopped = true) := by
  rcases tick_cases tasks now perm st with ⟨hA, ho, ht⟩ | ⟨hA, hS, ho, ht⟩ |
    ⟨hA, hS, hsel, ho, ht⟩ | ⟨c, hA, hS, hsel, ho, ht⟩
  · rw [ht]
    exact ⟨rfl, rfl, fun _ => rfl⟩
  · rw [ht]
    exact ⟨rfl, rfl, fun _ => rfl⟩
  · exact absurd ho h2
  · rw [ho] at h1
    have hnc : ¬ (0 < c.due.ms - now ∧ c.due.ms - now ≤ 60000) := by
      intro hc
      exact h1 (by rw [(classifyZone_critical_iff c.start c.due.ms now).mpr hc])
    by_cases hdone : c.due.ms - now ≤ 0
    · have df := tickTarget_done_facts c now perm st hdone
      rw [ht]
      exact ⟨df.1, df.2.1, fun _ => df.2.2.1⟩
    · have h60 : 60000 < c.due.ms - now := by omega
      have live := tickTarget_live_facts c now perm st (by omega)
      rw [ht]
      refine ⟨(live.2.2.2.2.2.1 h60).1, ?_, fun hf => (live.2.2.2.2.2.1 h60).2 hf⟩
      cases hpl : (tickTarget c now perm st).2.alarmPlayed
      · rfl
      · have := (live.2.2.2.1).mp hpl
        omega

theorem tick_noDeadline_frozen (tasks : List Task) (now : Int) (perm : Bool)
    (st : EngState) (h : outcomeOf tasks now = TickOutcome.noDeadline) :
    (tick tasks now perm st).1.alarmStarted = st.alarmStarted ∧
    (tick tasks now perm st).2.alarmPlayed = false ∧
    (tick tasks now perm st).2.alarmStopped = false := by
  rcases tick_cases tasks now perm st with ⟨hA, ho, ht⟩ | ⟨hA, hS, ho, ht⟩ |
    ⟨hA, hS, hsel, ho, ht⟩ | ⟨c, hA, hS, hsel, ho, ht⟩
  · rw [ho] at h; exact absurd h (by simp)
  · rw [ho] at h; exact absurd h (by simp)
  · rw [ht]
    exact ⟨rfl, rfl, rfl⟩
  · rw [ho] at h; exact absurd h (by simp)

/-! ## Claim C5: tasks with no resolvable due instant -/

theorem startedOf_sub_active {tasks : List Task} {now : Int} {t : Task}
    (h : t ∈ startedOf tasks now) : t ∈ activeOf tasks :=
  (List.mem_filter.mp h).1

/-- C5 as stated is false on the code: a started active task with no dates
is selected (with the max-date sentinel due) rather than producing the
`NoDeadlineSet` state. -/
theorem claim_C5_counterexample :
    outcomeOf [noDatesTask] 0 = TickOutcome.target Zone.normal ∧
    outcomeOf [noDatesTask] 0 ≠ TickOutcome.noDeadline ∧
    selectTarget [noDatesTask] 0 = some (mkCand noDatesTask) ∧
    (mkCand noDatesTask).task = noDatesTask := by
  refine ⟨by decide, by decide, by decide, rfl⟩

/-- C5 (amended): a started active task with neither an end date nor a
start date gets the sentinel due `new Date(8640000000000000)` and does
participate in the ranking (its candidate is in the candidate list); the
`NoDeadlineSet` state arises exactly when some task is started but every
started task has a computed due instant that is NaN (unparseable fields),
in which case no target is selected. -/
theorem claim_C5_sentinel_due :
    (∀ (t : Task) (now : Int), t.startDate = Option.none → t.endDate = Option.none →
      dueOf t = JsTime.fin 8640000000000000 ∧ isStarted now t = true) ∧
    (∀ (tasks : List Task) (now : Int) (t : Task), t ∈ startedOf tasks now →
      t.startDate = Option.none → t.endDate = Option.none →
      mkCand t ∈ candListOf tasks now) ∧
    (∀ (tasks : List Task) (now : Int), ¬ (startedOf tasks now).isEmpty = true →
      ((selectTarget tasks now = Option.none ↔
          ∀ t ∈ startedOf tasks now, (dueOf t).isNaN = true) ∧
        (selectTarget tasks now = Option.none →
          outcomeOf tasks now = TickOutcome.noDeadline))) := by
  have hdue : ∀ t : Task, t.startDate = Option.none → t.endDate = Option.none →
      dueOf t = JsTime.fin 8640000000000000 := by
    intro t h1 h2
    unfold dueOf toDateTime
    rw [h1, h2]
    rfl
  have hsel_iff : ∀ (tasks : List Task) (now : Int),
      (selectTarget tasks now = Option.none ↔ candListOf tasks now = []) := by
    intro tasks now
    unfold selectTarget
    rcases h : candListOf tasks now with _ | ⟨c, cs⟩ <;> simp
  refine ⟨?_, ?_, ?_⟩
  · intro t now h1 h2
    refine ⟨hdue t h1 h2, ?_⟩
    unfold isStarted startOf toDateTime
    rw [h1]
  · intro tasks now t hmem h1 h2
    unfold candListOf
    rw [List.mem_filter]
    constructor
    · exact List.mem_map_of_mem mkCand hmem
    · have := hdue t h1 h2
      simp [mkCand, this, JsTime.isNaN]
  · intro tasks now hne
    constructor
    · rw [hsel_iff]
      unfold candListOf
      rw [List.filter_eq_nil_iff]
      constructor
      · intro h t ht
        have := h (mkCand t) (List.mem_map_of_mem mkCand ht)
        simpa [mkCand] using this
      · intro h c hc
        obtain ⟨t, ht, rfl⟩ := List.mem_map.mp hc
        have := h t ht
        simp [mkCand, this]
    · intro hnone
      unfold outcomeOf
      have hA : ¬ (activeOf tasks).isEmpty = true := by
        intro hA
        apply hne
        rcases hS : startedOf tasks now with _ | ⟨t, ts⟩
        · rfl
        · have : t ∈ activeOf tasks := startedOf_sub_active (by rw [hS]; simp)
          rcases hAe : activeOf tasks with _ | _
          · rw [hAe] at this; simp at this
          · rw [hAe] at hA; simp at hA
      rw [if_neg hA, if_neg hne, hnone]

theorem claim_C5_sentinel_due_witness :
    dueOf noDatesTask = JsTime.fin 8640000000000000 ∧
      isStarted 0 noDatesTask = true :=
  claim_C5_sentinel_due.1 noDatesTask 0 rfl rfl

/-! ## Claim C8: the Recurrence Calculator -/

theorem addToYMD_days (x : Ymd) (k : Nat) (hk : k ≠ 0) :
    addToYMD x k 0 = civilFromDay (dayNumber x + k) := by
  simp [addToYMD, hk]

/-- C8: for every valid calendar date, `nextByRecurrence` advances a daily
rule by exactly one calendar day and a weekly rule by exactly seven
calendar days; completing the daily task with startDate 2024-01-31 spawns
a successor with startDate 2024-02-01; and monthly recurrence follows the
host normalisation (2024-01-31 + 1 month = Feb 31 = 2024-03-02). -/
theorem claim_C8_recurrence_calculator :
    (∀ x : Ymd, ymdValid x →
      nextByRecurrence (some x) Recurrence.daily = some (nextCalendarDay x) ∧
      nextByRecurrence (some x) Recurrence.weekly = some (nextCalendarDays 7 x)) ∧
    ((toggleTask "T" "T2" "iso" [dailyTask]).map (fun t => t.startDate) =
        [some (DateField.ok ⟨2024, 1, 31⟩), some (DateField.ok ⟨2024, 2, 1⟩)] ∧
      (toggleTask "T" "T2" "iso" [dailyTask]).map (fun t => t.completed) =
        [true, false]) ∧
    nextByRecurrence (some ⟨2024, 1, 31⟩) Recurrence.monthly = some ⟨2024, 3, 2⟩ := by
  refine ⟨?_, ⟨?_, ?_⟩, ?_⟩
  · intro x hv
    constructor
    · show some (addToYMD x 1 0) = _
      rw [addToYMD_days x 1 (by omega), civilFromDay_succ, civil_roundTrip x hv]
    · show some (addToYMD x 7 0) = _
      rw [addToYMD_days x 7 (by omega), civilFromDay_add, civil_roundTrip x hv]
  · decide
  · decide
  · decide

theorem claim_C8_recurrence_calculator_witness :
    nextByRecurrence (some ⟨2024, 1, 31⟩) Recurrence.daily =
        some (nextCalendarDay ⟨2024, 1, 31⟩) ∧
      nextByRecurrence (some ⟨2024, 1, 31⟩) Recurrence.weekly =
        some (nextCalendarDays 7 ⟨2024, 1, 31⟩) :=
  claim_C8_recurrence_calculator.1 ⟨2024, 1, 31⟩ (by decide)

theorem claim_C10_end_date_defaults_to_start_witness :
    mkNewTask addFormEndBeforeStart "id1" "t0" ∈ ([] : List Task) ∨
      (((mkNewTask addFormEndBeforeStart "id1" "t0").startDate.isSome →
          (mkNewTask addFormEndBeforeStart "id1" "t0").endDate.isSome) ∧
        (addFormEndBeforeStart.endDate = Option.none → ∀ d,
          addFormEndBeforeStart.startDate = some d →
          (mkNewTask addFormEndBeforeStart "id1" "t0").endDate =
            some (DateField.ok d))) :=
  claim_C10_end_date_defaults_to_start.1 addFormEndBeforeStart "id1" "t0" []
    (mkNewTask addFormEndBeforeStart "id1" "t0") (by decide)

/-! ## Claim C3: alarm lifecycle -/

/-- C3 as stated is false on the code: the `NoDeadlineSet` branch returns
before the alarm control lines, so a tick whose outcome is `NoDeadlineSet`
(reachable when the end date of the selected task stops parsing, e.g.
after a JSON import under the same id) leaves an active alarm playing and the
flag set. -/
theorem claim_C3_counterexample :
    outcomeOf [badDueTask] (epochMs ⟨2024, 1, 1⟩) = TickOutcome.noDeadline ∧
    (tick [criticalTask] (epochMs ⟨2024, 1, 1⟩) false initState).2.alarmPlayed = true ∧
    (tick [badDueTask] (epochMs ⟨2024, 1, 1⟩) false
        (tick [criticalTask] (epochMs ⟨2024, 1, 1⟩) false initState).1).1.alarmStarted =
      true ∧
    (tick [badDueTask] (epochMs ⟨2024, 1, 1⟩) false
        (tick [criticalTask] (epochMs ⟨2024, 1, 1⟩) false initState).1).2.alarmStopped =
      false := by
  refine ⟨by decide, by decide, by decide, by decide⟩

/-- C3 (amended): on every tick whose outcome is neither `Critical` nor
`NoDeadlineSet` the alarm flag ends false, nothing is played, and an
active alarm is paused; a `Critical` tick plays the looping alarm exactly
when the pre-tick flag is clear (so consecutive `Critical` ticks with the
flag set never re-invoke it, and entry from a non-`Critical`,
non-`NoDeadlineSet` tick invokes it exactly once), and afterwards the flag
is set unless the target key changed while the flag was already set (the
closure reads the pre-tick flag, deferring the replay by one tick); a
`NoDeadlineSet` tick leaves the alarm state completely untouched. -/
theorem claim_C3_alarm_lifecycle :
    ∀ (tasks : List Task) (now : Int) (perm : Bool) (st : EngState),
      ((outcomeOf tasks now ≠ TickOutcome.target Zone.critical ∧
          outcomeOf tasks now ≠ TickOutcome.noDeadline) →
        (tick tasks now perm st).1.alarmStarted = false ∧
        (tick tasks now perm st).2.alarmPlayed = false ∧
        (st.alarmStarted = true → (tick tasks now perm st).2.alarmStopped = true)) ∧
      (outcomeOf tasks now = TickOutcome.target Zone.critical →
        ∃ c, selectTarget tasks now = some c ∧
          ((tick tasks now perm st).2.alarmPlayed = true ↔ st.alarmStarted = false) ∧
          ((tick tasks now perm st).1.alarmStarted = true ↔
            (st.alarmStarted = false ∨ st.lastTaskKey = some (targetKey c)))) ∧
      (outcomeOf tasks now = TickOutcome.noDeadline →
        (tick tasks now perm st).1.alarmStarted = st.alarmStarted ∧
        (tick tasks now perm st).2.alarmPlayed = false ∧
        (tick tasks now perm st).2.alarmStopped = false) ∧
      (∀ (tasks2 : List Task) (now2 : Int) (perm2 : Bool),
        outcomeOf tasks now = TickOutcome.target Zone.critical →
        (tick tasks now perm st).1.alarmStarted = true →
        outcomeOf tasks2 now2 = TickOutcome.target Zone.critical →
        (tick tasks2 now2 perm2 (tick tasks now perm st).1).2.alarmPlayed = false) ∧
      (∀ (tasks2 : List Task) (now2 : Int) (perm2 : Bool),
        (outcomeOf tasks now ≠ TickOutcome.target Zone.critical ∧
          outcomeOf tasks now ≠ TickOutcome.noDeadline) →
        outcomeOf tasks2 now2 = TickOutcome.target Zone.critical →
        (tick tasks2 now2 perm2 (tick tasks now perm st).1).2.alarmPlayed = true) := by
  intro tasks now perm st
  refine ⟨fun h => tick_noncritical_off tasks now perm st h.1 h.2,
    fun h => tick_critical_facts tasks now perm st h,
    fun h => tick_noDeadline_frozen tasks now perm st h, ?_, ?_⟩
  · intro t2 n2 p2 _ hflag h2
    obtain ⟨c2, _, hplay, _⟩ :=
      tick_critical_facts t2 n2 p2 (tick tasks now perm st).1 h2
    cases hpl : (tick t2 n2 p2 (tick tasks now perm st).1).2.alarmPlayed
    · rfl
    · rw [hplay.mp hpl] at hflag
      exact absurd hflag (by simp)
  · intro t2 n2 p2 h h3
    have hoff := tick_noncritical_off tasks now perm st h.1 h.2
    obtain ⟨c2, _, hplay, _⟩ :=
      tick_critical_facts t2 n2 p2 (tick tasks now perm st).1 h3
    exact hplay.mpr hoff.1

theorem claim_C3_alarm_lifecycle_witness :
    (tick [noDatesTask] 0 false initState).1.alarmStarted = false ∧
    (tick [noDatesTask] 0 false initState).2.alarmPlayed = false ∧
    (initState.alarmStarted = true →
      (tick [noDatesTask] 0 false initState).2.alarmStopped = true) :=
  (claim_C3_alarm_lifecycle [noDatesTask] 0 false initState).1
    ⟨by decide, by decide⟩

/-! ## Claim C4: the 5-minute notification -/

theorem show5min_spec (perm : Bool) (k : NKey) (notified : List NKey) :
    (∀ k2, k2 ∈ notified → k2 ∈ (show5minNotification perm k notified).1) ∧
    (∀ k2, (show5minNotification perm k notified).2 = some k2 →
      k2 ∉ notified ∧ k2 ∈ (show5minNotification perm k notified).1) := by
  unfold show5minNotification
  split_ifs with h1 h2 <;> simp_all

theorem tick_notif_invariants (tasks : List Task) (now : Int) (perm : Bool)
    (st : EngState) :
    (∀ k, k ∈ st.notified → k ∈ (tick tasks now perm st).1.notified) ∧
    (∀ k, (tick tasks now perm st).2.notifFired = some k →
      k ∉ st.notified ∧ k ∈ (tick tasks now perm st).1.notified) := by
  rcases tick_cases tasks now perm st with ⟨hA, ho, ht⟩ | ⟨hA, hS, ho, ht⟩ |
    ⟨hA, hS, hsel, ho, ht⟩ | ⟨c, hA, hS, hsel, ho, ht⟩ <;> rw [ht]
  · exact ⟨fun k h => h, fun k h => absurd h (by simp)⟩
  · exact ⟨fun k h => h, fun k h => absurd h (by simp)⟩
  · exact ⟨fun k h => h, fun k h => absurd h (by simp)⟩
  · by_cases hdone : c.due.ms - now ≤ 0
    · obtain ⟨_, _, _, _, _, hfir, hnot, _, _⟩ := tickTarget_done_facts c now perm st hdone
      rw [hfir, hnot]
      exact ⟨fun k h => h, fun k h => absurd h (by simp)⟩
    · obtain ⟨_, _, _, _, _, _, _, hnot, hfir⟩ :=
        tickTarget_live_facts c now perm st (by omega)
      rw [hfir, hnot]
      by_cases h300 : c.due.ms - now ≤ 300000
      · rw [if_pos h300, if_pos h300]
        exact ⟨(show5min_spec perm (notifKey c.task) st.notified).1,
          (show5min_spec perm (notifKey c.task) st.notified).2⟩
      · rw [if_neg h300, if_neg h300]
        exact ⟨fun k h => h, fun k h => absurd h (by simp)⟩

theorem countFired_zero_of_mem :
    ∀ (ins : List TickIn) (st : EngState) (k : NKey),
      k ∈ st.notified → countFired (runTicks st ins) k = 0 := by
  intro ins
  induction ins with
  | nil => intro st k _; rfl
  | cons i is ih =>
    intro st k h
    have inv := tick_notif_invariants i.tasks i.now i.perm st
    show (if (tick i.tasks i.now i.perm st).2.notifFired = some k then 1 else 0) +
        countFired (runTicks (tick i.tasks i.now i.perm st).1 is) k = 0
    rw [ih _ k (inv.1 k h)]
    have hnf : ¬ (tick i.tasks i.now i.perm st).2.notifFired = some k := by
      intro hf
      exact (inv.2 k hf).1 h
    rw [if_neg hnf]

theorem countFired_le_one :
    ∀ (ins : List TickIn) (st : EngState) (k : NKey),
      countFired (runTicks st ins) k ≤ 1 := by
  intro ins
  induction ins with
  | nil => intro st k; exact Nat.zero_le 1
  | cons i is ih =>
    intro st k
    have inv := tick_notif_invariants i.tasks i.now i.perm st
    show (if (tick i.tasks i.now i.perm st).2.notifFired = some k then 1 else 0) +
        countFired (runTicks (tick i.tasks i.now i.perm st).1 is) k ≤ 1
    by_cases hf : (tick i.tasks i.now i.perm st).2.notifFired = some k
    · rw [if_pos hf, countFired_zero_of_mem is _ k (inv.2 k hf).2]
    · rw [if_neg hf]
      have := ih (tick i.tasks i.now i.perm st).1 k
      omega

/-- C4: an attempt at the one-shot 5-minute notification happens on
exactly the ticks whose classified remaining time lies in (0, 300 s]
(zones `Imminent` and `Critical`), always with the `(task.id, due)` dedup
key of the selected target; and across any whole run of ticks the
notification is actually constructed at most once per key (the
`notified5minRef` set grows monotonically and is checked before firing). -/
theorem claim_C4_notification_dedup :
    (∀ (tasks : List Task) (now : Int) (perm : Bool) (st : EngState),
      ((tick tasks now perm st).2.notifAttempt.isSome = true ↔
        (outcomeOf tasks now = TickOutcome.target Zone.critical ∨
          outcomeOf tasks now = TickOutcome.target Zone.imminent)) ∧
      (∀ k, (tick tasks now perm st).2.notifAttempt = some k →
        ∃ c, selectTarget tasks now = some c ∧ k = notifKey c.task)) ∧
    (∀ (st : EngState) (ins : List TickIn) (k : NKey),
      countFired (runTicks st ins) k ≤ 1) := by
  constructor
  · intro tasks now perm st
    rcases tick_cases tasks now perm st with ⟨hA, ho, ht⟩ | ⟨hA, hS, ho, ht⟩ |
      ⟨hA, hS, hsel, ho, ht⟩ | ⟨c, hA, hS, hsel, ho, ht⟩ <;> rw [ht, ho]
    · exact ⟨by simp, fun k h => absurd h (by simp)⟩
    · exact ⟨by simp, fun k h => absurd h (by simp)⟩
    · exact ⟨by simp, fun k h => absurd h (by simp)⟩
    · by_cases hdone : c.due.ms - now ≤ 0
      · obtain ⟨_, _, _, _, hatt, _, _, _, _⟩ := tickTarget_done_facts c now perm st hdone
        rw [hatt]
        have hz : classifyZone c.start c.due.ms now = Zone.done :=
          (classifyZone_done_iff c.start c.due.ms now).mpr hdone
        rw [hz]
        exact ⟨by simp, fun k h => absurd h (by simp)⟩
      · obtain ⟨_, _, _, _, _, _, hatt, _, _⟩ :=
          tickTarget_live_facts c now perm st (by omega)
        rw [hatt]
        by_cases h300 : c.due.ms - now ≤ 300000
        · rw [if_pos h300]
          constructor
          · simp only [Option.isSome_some, true_iff]
            by_cases h60 : c.due.ms - now ≤ 60000
            · exact Or.inl (by
                rw [(classifyZone_critical_iff c.start c.due.ms now).mpr ⟨by omega, h60⟩])
            · exact Or.inr (by
                rw [(classifyZone_imminent_iff c.start c.due.ms now).mpr ⟨by omega, h300⟩])
          · intro k hk
            refine ⟨c, hsel, ?_⟩
            injection hk with h
            exact h.symm
        · rw [if_neg h300]
          constructor
          · simp only [Option.isSome_none, Bool.false_eq_true, false_iff]
            intro hor
            rcases hor with hz | hz <;> injection hz with hz
            · rw [classifyZone_critical_iff] at hz
              omega
            · rw [classifyZone_imminent_iff] at hz
              omega
          · exact fun k h => absurd h (by simp)
  · exact fun st ins k => countFired_le_one ins st k

theorem claim_C4_notification_dedup_witness :
    ∃ c, selectTarget [criticalTask] (epochMs ⟨2024, 1, 1⟩) = some c ∧
      notifKey criticalTask = notifKey c.task :=
  (claim_C4_notification_dedup.1 [criticalTask] (epochMs ⟨2024, 1, 1⟩) true initState).2
    (notifKey criticalTask) (by decide)

/-! ## Claim C9: chime and lastZone -/

theorem classifyZone_color (start : Option JsTime) (due now : Int)
    (h : ¬ (due - now ≤ 0)) :
    colorOfZone (classifyZone start due now) = tickColor start due now ∧
    classifyZone start due now ≠ Zone.done := by
  unfold classifyZone
  rw [if_neg h]
  refine ⟨colorOfZone_zoneOfColor _, ?_⟩
  cases htc : tickColor start due now <;> simp [zoneOfColor]

/-- C9 (amended): on a tick that classifies a non-`Done` zone `z` for the
selected target, exactly one chime plays iff the pre-tick `lastZone` is
non-empty, differs from `z`, and the remaining time exceeds 60 s (`z` not
`Critical`), and `lastZone` is then updated to `z`; on a `Done` tick no
chime plays and `lastZone` is left at its previous value (or at the value
cleared by a target change); display-only ticks never chime, and update
`lastZone` only in the `NoActiveTasks` reset. -/
theorem claim_C9_chime_and_lastZone :
    ∀ (tasks : List Task) (now : Int) (perm : Bool) (st : EngState),
      (∀ z, outcomeOf tasks now = TickOutcome.target z → z ≠ Zone.done →
        (((tick tasks now perm st).2.chimePlayed = true) ↔
          (st.lastColor ≠ Option.none ∧ st.lastColor ≠ some (colorOfZone z) ∧
            z ≠ Zone.critical)) ∧
        (tick tasks now perm st).1.lastColor = some (colorOfZone z)) ∧
      (outcomeOf tasks now = TickOutcome.target Zone.done →
        (tick tasks now perm st).2.chimePlayed = false ∧
        ∃ c, selectTarget tasks now = some c ∧
          (tick tasks now perm st).1.lastColor =
            (if st.lastTaskKey = some (targetKey c) then st.lastColor
             else Option.none)) ∧
      (outcomeOf tasks now = TickOutcome.noActive →
        (tick tasks now perm st).2.chimePlayed = false ∧
        (tick tasks now perm st).1.lastColor = Option.none) ∧
      ((outcomeOf tasks now = TickOutcome.noneStarted ∨
          outcomeOf tasks now = TickOutcome.noDeadline) →
        (tick tasks now perm st).2.chimePlayed = false ∧
        (tick tasks now perm st).1.lastColor = st.lastColor) := by
  intro tasks now perm st
  rcases tick_cases tasks now perm st with ⟨hA, ho, ht⟩ | ⟨hA, hS, ho, ht⟩ |
    ⟨hA, hS, hsel, ho, ht⟩ | ⟨c, hA, hS, hsel, ho, ht⟩ <;> rw [ht, ho]
  · exact ⟨fun z h => absurd h (by simp), fun h => absurd h (by simp),
      fun _ => ⟨rfl, rfl⟩, fun h => absurd h (by simp)⟩
  · exact ⟨fun z h => absurd h (by simp), fun h => absurd h (by simp),
      fun h => absurd h (by simp), fun _ => ⟨rfl, rfl⟩⟩
  · exact ⟨fun z h => absurd h (by simp), fun h => absurd h (by simp),
      fun h => absurd h (by simp), fun _ => ⟨rfl, rfl⟩⟩
  · refine ⟨?_, ?_, fun h => absurd h (by simp), fun h => ?_⟩
    · intro z h hznd
      injection h with hzz
      have hdone : ¬ (c.due.ms - now ≤ 0) := by
        intro hd
        exact hznd (by rw [← hzz, (classifyZone_done_iff c.start c.due.ms now).mpr hd])
      obtain ⟨hcol, hlast, hch, _⟩ := tickTarget_live_facts c now perm st (by omega)
      have hcz := (classifyZone_color c.start c.due.ms now hdone).1
      rw [hzz] at hcz
      have e1 : st.lastColor.isSome = true ↔ st.lastColor ≠ Option.none :=
        Option.isSome_iff_ne_none
      have e2 : (some (tickColor c.start c.due.ms now) ≠ st.lastColor) ↔
          st.lastColor ≠ some (colorOfZone z) := by
        rw [hcz]
        exact ne_comm
      have e3 : (60000 < c.due.ms - now) ↔ z ≠ Zone.critical := by
        constructor
        · intro h60 hzc
          rw [← hzz, classifyZone_critical_iff] at hzc
          omega
        · intro hzc
          by_contra h60
          exact hzc (by
            rw [← hzz, (classifyZone_critical_iff c.start c.due.ms now).mpr
              ⟨by omega, by omega⟩])
      constructor
      · rw [hch, e1, e2, e3]
      · rw [hcol, hcz]
    · intro h
      injection h with hzz
      have hdone : c.due.ms - now ≤ 0 := by
        by_contra hd
        exact (classifyZone_color c.start c.due.ms now hd).2 hzz
      obtain ⟨_, _, _, hchime, _, _, _, _, hlc⟩ :=
        tickTarget_done_facts c now perm st hdone
      exact ⟨hchime, c, hsel, hlc⟩
    · rcases h with h | h <;> exact absurd h (by simp)

/-- C9 as stated is false on the code: on a tick whose zone is `Done` the
early return skips `setLastColor`, so `lastZone` keeps the previous value
(here the red of the preceding `Imminent` tick) instead of being updated. -/
theorem claim_C9_counterexample :
    outcomeOf [criticalTask] (epochMs ⟨2024, 1, 1⟩ + 30001) =
        TickOutcome.target Zone.done ∧
    (tick [criticalTask] (epochMs ⟨2024, 1, 1⟩ - 170000) false initState).1.lastColor =
      some Color.red ∧
    (tick [criticalTask] (epochMs ⟨2024, 1, 1⟩ + 30001) false
        (tick [criticalTask] (epochMs ⟨2024, 1, 1⟩ - 170000) false
          initState).1).1.lastColor = some Color.red ∧
    some Color.red ≠ some (colorOfZone Zone.done) := by
  refine ⟨by decide, by decide, by decide, by decide⟩

theorem claim_C9_chime_and_lastZone_witness :
    (((tick [criticalTask] (epochMs ⟨2024, 1, 1⟩ - 170000) false
          initState).2.chimePlayed = true) ↔
      (initState.lastColor ≠ Option.none ∧
        initState.lastColor ≠ some (colorOfZone Zone.imminent) ∧
        Zone.imminent ≠ Zone.critical)) ∧
    (tick [criticalTask] (epochMs ⟨2024, 1, 1⟩ - 170000) false
        initState).1.lastColor = some (colorOfZone Zone.imminent) :=
  (claim_C9_chime_and_lastZone [criticalTask] (epochMs ⟨2024, 1, 1⟩ - 170000)
      false initState).1 Zone.imminent (by decide) (by decide)

end TaskManager
